import Mathlib

/-!
Shallow embedding of the Olist dashboard's core logic (src/dashboard.py):
the filter engine, the four aggregations, the KPI calculator, the
geospatial sampling step and the input-file discovery rule, together with
theorems settling the specification's claims about them.

Rows of the CSV are modelled as records; nullable columns are `Option`s
(pandas `NaN`/`NaT`); monetary values are exact rationals; a timestamp is
a calendar date (an integer day ordinal) plus a time-of-day, since the
filter compares `.dt.date` only.
-/

/-- A purchase timestamp: calendar date (day ordinal) and time of day.
The filter engine compares only the `date` part (`.dt.date`). -/
structure Timestamp where
  date : Int
  tod : Nat
deriving DecidableEq, Repr

/-- One row of the denormalized dataset (`main_data.csv`).  Columns not
used by the core are omitted; nullable columns are `Option`s. -/
structure Row where
  order_id : String
  customer_unique_id : Option String
  customer_state : Option String
  rfm_segment : Option String
  order_revenue : Rat
  order_purchase_timestamp : Option Timestamp
  geolocation_lat : Option Rat
  geolocation_lng : Option Rat
deriving DecidableEq, Repr

/-! ### Sorting, as pandas does it

`DataFrame.sort_values(col, ascending=False)` computes the ascending
argsort of the key column and reverses it (pandas `nargsort`); with
`na_position="last"` the indices of missing keys are appended after the
reversal.  We model the ascending argsort as a stable insertion sort.  -/

/-- Stable insertion of `a` into `l`: `a` goes before the first element it
compares `le` to, so earlier input elements precede ties. -/
def insertLe (le : α → α → Bool) (a : α) : List α → List α
  | [] => [a]
  | b :: l => if le a b then a :: b :: l else b :: insertLe le a l

/-- Stable insertion sort (ascending by `le`). -/
def sortLe (le : α → α → Bool) : List α → List α
  | [] => []
  | a :: l => insertLe le a (sortLe le l)

/-- `sort_values(ascending=False)`: pandas reverses the ascending argsort. -/
def sortValuesDesc (le : α → α → Bool) (l : List α) : List α :=
  (sortLe le l).reverse

/-! ### Group-by

pandas `groupby(col)` with the default `sort=True, dropna=True`: one group
per distinct non-null key value, groups in ascending key order. -/

/-- String comparison as a Bool, for sorting keys ascending. -/
def strLe (a b : String) : Bool := decide (a ≤ b)

/-- The group keys of `groupby(key)`: distinct non-null values of `key`,
in ascending order (pandas default `sort=True, dropna=True`). -/
def groupKeys (key : Row → Option String) (df : List Row) : List String :=
  sortLe strLe (df.filterMap key).dedup

/-- The rows belonging to group `k` of `groupby(key)`. -/
def groupRows (key : Row → Option String) (k : String) (df : List Row) : List Row :=
  df.filter (fun r => key r = some k)

/-- `Series.nunique()`: number of distinct non-null values. -/
def nuniqueOpt (f : Row → Option String) (rows : List Row) : Nat :=
  ((rows.filterMap f).dedup).length

/-- `Series.nunique()` on a column without nulls. -/
def nunique (f : Row → String) (rows : List Row) : Nat :=
  ((rows.map f).dedup).length

/-- `Series.sum()` of `order_revenue` (0 on an empty selection). -/
def revSum (rows : List Row) : Rat :=
  (rows.map (fun r => r.order_revenue)).sum

/-! ### Filter engine (dashboard.py lines 89-95) -/

/-- `df[(df["order_purchase_timestamp"].dt.date >= start_date) &
(df["order_purchase_timestamp"].dt.date <= end_date)]`.  A `NaT`
timestamp compares false on both sides, so the row is dropped. -/
def dateFilter (start_date end_date : Int) (df : List Row) : List Row :=
  df.filter (fun r =>
    match r.order_purchase_timestamp with
    | none => false
    | some t => decide (start_date ≤ t.date) && decide (t.date ≤ end_date))

/-- `if state != "(All)": df_f = df_f[df_f["customer_state"] == state]`.
A null state compares unequal to every selected state. -/
def stateFilter (state : String) (df : List Row) : List Row :=
  if state = "(All)" then df
  else df.filter (fun r => r.customer_state = some state)

/-- `if seg != "(All)": df_f = df_f[df_f["rfm_segment"] == seg]`. -/
def segFilter (seg : String) (df : List Row) : List Row :=
  if seg = "(All)" then df
  else df.filter (fun r => r.rfm_segment = some seg)

/-- The filtered dataset `df_f`: date range, then state, then segment. -/
def df_f (df : List Row) (start_date end_date : Int) (state seg : String) : List Row :=
  segFilter seg (stateFilter state (dateFilter start_date end_date df))

/-! ### The four aggregations (dashboard.py lines 29-63) -/

/-- A row of the Segment Customer Count table. -/
structure SegCountRow where
  rfm_segment : String
  customers : Nat
deriving DecidableEq, Repr

/-- `create_rfm_segment_df`: group by `rfm_segment`, `nunique` of
`customer_unique_id` as `customers`, sort descending by `customers`. -/
def create_rfm_segment_df (df : List Row) : List SegCountRow :=
  sortValuesDesc (fun x y => decide (x.customers ≤ y.customers))
    ((groupKeys (fun r => r.rfm_segment) df).map (fun k =>
      ⟨k, nuniqueOpt (fun r => r.customer_unique_id)
            (groupRows (fun r => r.rfm_segment) k df)⟩))

/-- A row of the Segment Revenue table. -/
structure SegRevRow where
  rfm_segment : String
  total_revenue : Rat
deriving DecidableEq, Repr

/-- `create_rfm_revenue_df`: group by `rfm_segment`, sum of
`order_revenue` as `total_revenue`, sort descending by `total_revenue`. -/
def create_rfm_revenue_df (df : List Row) : List SegRevRow :=
  sortValuesDesc (fun x y => decide (x.total_revenue ≤ y.total_revenue))
    ((groupKeys (fun r => r.rfm_segment) df).map (fun k =>
      ⟨k, revSum (groupRows (fun r => r.rfm_segment) k df)⟩))

/-- A row of the Average Revenue per Customer per Segment table.  The
average is `Option`al: `total_revenue / customers.replace(0, pd.NA)` is
`pd.NA` when `customers = 0`. -/
structure AvgRevRow where
  rfm_segment : String
  customers : Nat
  total_revenue : Rat
  avg_revenue_per_customer : Option Rat
deriving DecidableEq, Repr

/-- The unsorted group rows of `create_avg_rev_per_customer_df`. -/
def avgRevGroups (df : List Row) : List AvgRevRow :=
  (groupKeys (fun r => r.rfm_segment) df).map (fun k =>
    let g := groupRows (fun r => r.rfm_segment) k df
    let c := nuniqueOpt (fun r => r.customer_unique_id) g
    ⟨k, c, revSum g, if c = 0 then none else some (revSum g / (c : Rat))⟩)

/-- `sort_values("avg_revenue_per_customer", ascending=False)` with the
default `na_position="last"`: pandas reverses the ascending argsort of
the non-missing keys and appends the missing-key rows after it. -/
def sortAvgDesc (rows : List AvgRevRow) : List AvgRevRow :=
  sortValuesDesc
    (fun x y => decide ((x.avg_revenue_per_customer).getD 0 ≤ (y.avg_revenue_per_customer).getD 0))
    (rows.filter (fun r => (r.avg_revenue_per_customer).isSome))
  ++ rows.filter (fun r => (r.avg_revenue_per_customer).isNone)

/-- `create_avg_rev_per_customer_df`: group by `rfm_segment`, distinct
customers and revenue sum, average with `NA` for a zero denominator,
sorted descending with missing averages last. -/
def create_avg_rev_per_customer_df (df : List Row) : List AvgRevRow :=
  sortAvgDesc (avgRevGroups df)

/-- A row of the State Performance table. -/
structure StatePerfRow where
  customer_state : String
  total_orders : Nat
  total_revenue : Rat
deriving DecidableEq, Repr

/-- `create_state_perf_df`: group by `customer_state`, `nunique` of
`order_id` as `total_orders`, sum of `order_revenue` as `total_revenue`,
sort descending by `total_revenue`. -/
def create_state_perf_df (df : List Row) : List StatePerfRow :=
  sortValuesDesc (fun x y => decide (x.total_revenue ≤ y.total_revenue))
    ((groupKeys (fun r => r.customer_state) df).map (fun k =>
      ⟨k, nunique (fun r => r.order_id) (groupRows (fun r => r.customer_state) k df),
        revSum (groupRows (fun r => r.customer_state) k df)⟩))

/-- `state_perf.head(10)`: the "Top 10 State by Revenue" chart data. -/
def top10_by_revenue (df : List Row) : List StatePerfRow :=
  (create_state_perf_df df).take 10

/-- `state_perf.sort_values("total_orders", ascending=False).head(10)`:
the "Top 10 State by Orders" chart data, a re-sort of the same table. -/
def top10_by_orders (df : List Row) : List StatePerfRow :=
  (sortValuesDesc (fun x y => decide (x.total_orders ≤ y.total_orders))
    (create_state_perf_df df)).take 10

/-! ### KPI calculator (dashboard.py lines 99-102) -/

/-- `total_revenue = df_f["order_revenue"].sum()`. -/
def total_revenue (df : List Row) : Rat := revSum df

/-- `total_orders = df_f["order_id"].nunique()`. -/
def total_orders (df : List Row) : Nat := nunique (fun r => r.order_id) df

/-- `total_customers = df_f["customer_unique_id"].nunique()`. -/
def total_customers (df : List Row) : Nat :=
  nuniqueOpt (fun r => r.customer_unique_id) df

/-- `aov = total_revenue / total_orders if total_orders else 0`. -/
def aov (df : List Row) : Rat :=
  if total_orders df ≠ 0 then total_revenue df / (total_orders df : Rat) else 0

/-! ### Geospatial sampling (dashboard.py lines 171-176) -/

/-- `df_f.dropna(subset=["geolocation_lat","geolocation_lng"])`: keep the
rows with both coordinates present. -/
def geoValid (df : List Row) : List Row :=
  df.filter (fun r => (r.geolocation_lat).isSome && (r.geolocation_lng).isSome)

/-- One step of a linear congruential generator, driving the sampler. -/
def lcgStep (s : Nat) : Nat := (1103515245 * s + 12345) % 2 ^ 31

/-- Draw `n` rows without replacement, each pick chosen by the generator
state.  Recursion is on the number of draws still to make. -/
def sampleGo (n : Nat) (s : Nat) (l : List Row) : List Row :=
  match n, l with
  | 0, _ => []
  | _ + 1, [] => []
  | n + 1, a :: l =>
    let i := s % (a :: l : List Row).length
    ((a :: l).get ⟨i, Nat.mod_lt _ (Nat.succ_pos _)⟩)
      :: sampleGo n (lcgStep s) ((a :: l).eraseIdx i)

/-- Modelled from the spec: `DataFrame.sample(3000, random_state=42)` is
a pandas library routine whose internals are outside this repository; the
spec requires a fixed-size uniform random sample of exactly 3000 rows
drawn with a deterministic seed.  We model it as a seeded deterministic
without-replacement selection. -/
def sample (n : Nat) (seed : Nat) (l : List Row) : List Row :=
  sampleGo n seed l

/-- `df_map`: drop rows missing a coordinate, then, when more than 3000
remain, sample exactly 3000 with the fixed seed 42. -/
def df_map (df : List Row) : List Row :=
  if (geoValid df).length > 3000 then sample 3000 42 (geoValid df) else geoValid df

/-! ### Input-file discovery (dashboard.py lines 14-23)

Modelled over the list of file names present in the dashboard's directory:
`DATA_PATH = DATA_DIR / "main_data.csv"` is used when it exists; otherwise
`sorted(DATA_DIR.glob("*.csv"))` is consulted and its first element used;
if that list is empty the program shows an error and stops (`st.stop()`),
modelled as `none`. -/

/-- `DATA_DIR.glob("*.csv")` membership: the name ends in `".csv"`,
modelled as a suffix test on the name's character list. -/
def matchesCsv (f : String) : Bool := (".csv".data).isSuffixOf f.data

/-- Resolve the input file from the directory listing: the fixed name if
present, else the lexicographically first `.csv`, else fatal (`none`). -/
def discoverDataPath (files : List String) : Option String :=
  if "main_data.csv" ∈ files then some "main_data.csv"
  else
    match sortLe strLe (files.filter (fun f => matchesCsv f)) with
    | [] => none
    | f :: _ => some f

/-! ### Concrete datasets used to instantiate the theorems -/

/-- A row literal helper for the concrete datasets below. -/
def mkRow (oid : String) (cust st sg : Option String) (rev : Rat) (d : Int) : Row :=
  ⟨oid, cust, st, sg, rev, some ⟨d, 0⟩, none, none⟩

/-- Three rows over two segments and two states, all on day 0. -/
def dEx : List Row :=
  [mkRow "o1" (some "A") (some "SP") (some "Champions") 100 0,
   mkRow "o2" (some "B") (some "SP") (some "Champions") 50 0,
   mkRow "o3" (some "C") (some "RJ") (some "At Risk") 30 0]

/-- Two rows whose segments "A" and "B" appear in that order and tie at
one distinct customer each. -/
def dTie : List Row :=
  [mkRow "o1" (some "x") none (some "A") 1 0,
   mkRow "o2" (some "y") none (some "B") 1 0]

/-- A segment group with only null customer ids, next to a normal one. -/
def dZero : List Row :=
  [mkRow "o1" none none (some "S") 5 0,
   mkRow "o2" (some "c") none (some "T") 8 0]

/-- One row with a null `rfm_segment` and revenue 0. -/
def dNullSeg : List Row :=
  [mkRow "o1" (some "c") (some "SP") none 0 0]

/-- A row with both geolocation coordinates present. -/
def rGeo : Row :=
  ⟨"o1", some "c", some "SP", some "S", 1, some ⟨0, 0⟩, some 1, some 2⟩

/-! ## Lemmas about the insertion sort -/

theorem insertLe_perm (le : α → α → Bool) (a : α) (l : List α) :
    (insertLe le a l).Perm (a :: l) := by
  induction l with
  | nil => simp [insertLe]
  | cons b l ih =>
    simp only [insertLe]
    split
    · exact List.Perm.refl _
    · exact (ih.cons b).trans (List.Perm.swap a b l)

theorem sortLe_perm (le : α → α → Bool) (l : List α) : (sortLe le l).Perm l := by
  induction l with
  | nil => simp [sortLe]
  | cons a l ih => exact (insertLe_perm le a (sortLe le l)).trans (ih.cons a)

theorem sortValuesDesc_perm (le : α → α → Bool) (l : List α) :
    (sortValuesDesc le l).Perm l :=
  ((sortLe le l).reverse_perm).trans (sortLe_perm le l)

theorem mem_sortLe {le : α → α → Bool} {l : List α} {x : α} :
    x ∈ sortLe le l ↔ x ∈ l :=
  (sortLe_perm le l).mem_iff

theorem mem_sortValuesDesc {le : α → α → Bool} {l : List α} {x : α} :
    x ∈ sortValuesDesc le l ↔ x ∈ l :=
  (sortValuesDesc_perm le l).mem_iff

/-- Stable sortedness of the insertion step: the output is ordered by `le`
and ties keep the relation `r` the inserted element had to the rest. -/
theorem insertLe_pairwise (le : α → α → Bool) (r : α → α → Prop)
    (total : ∀ a b, le a b = true ∨ le b a = true)
    (htrans : ∀ a b c, le a b = true → le b c = true → le a c = true)
    (a : α) (l : List α)
    (hl : l.Pairwise (fun x y => le x y = true ∧ (le y x = true → r x y)))
    (ha : ∀ b ∈ l, r a b) :
    (insertLe le a l).Pairwise (fun x y => le x y = true ∧ (le y x = true → r x y)) := by
  induction l with
  | nil => simp [insertLe]
  | cons b l ih =>
    rcases List.pairwise_cons.mp hl with ⟨hb, hl2⟩
    simp only [insertLe]
    split
    case isTrue hab =>
      refine List.pairwise_cons.mpr ⟨?_, hl⟩
      intro y hy
      rcases List.mem_cons.mp hy with rfl | hy2
      · exact ⟨hab, fun _ => ha y (List.mem_cons_self _ _)⟩
      · exact ⟨htrans a b y hab (hb y hy2).1,
          fun _ => ha y (List.mem_cons_of_mem _ hy2)⟩
    case isFalse hab =>
      have hba : le b a = true := (total a b).resolve_left hab
      refine List.pairwise_cons.mpr ⟨?_, ?_⟩
      · intro y hy
        rcases List.mem_cons.mp ((insertLe_perm le a l).mem_iff.mp hy) with rfl | hy2
        · exact ⟨hba, fun h => absurd h hab⟩
        · exact hb y hy2
      · exact ih hl2 (fun c hc => ha c (List.mem_cons_of_mem _ hc))

/-- Stable sortedness of the insertion sort: given a total transitive
comparison `le` and any `Pairwise r` input, the output is ordered by `le`
and ties keep the input order relation `r`. -/
theorem sortLe_pairwise (le : α → α → Bool) (r : α → α → Prop)
    (total : ∀ a b, le a b = true ∨ le b a = true)
    (htrans : ∀ a b c, le a b = true → le b c = true → le a c = true) :
    ∀ l : List α, l.Pairwise r →
      (sortLe le l).Pairwise (fun x y => le x y = true ∧ (le y x = true → r x y)) := by
  intro l hl
  induction l with
  | nil => simp [sortLe]
  | cons a l ih =>
    rcases List.pairwise_cons.mp hl with ⟨ha, hl2⟩
    exact insertLe_pairwise le r total htrans a (sortLe le l) (ih hl2)
      (fun b hb => ha b (mem_sortLe.mp hb))

theorem pairwise_true (l : List α) : l.Pairwise (fun _ _ => True) := by
  induction l with
  | nil => exact List.Pairwise.nil
  | cons a l ih => exact List.pairwise_cons.mpr ⟨fun _ _ => trivial, ih⟩

/-- Plain sortedness of the insertion sort, for total transitive `le`. -/
theorem sortLe_sorted (le : α → α → Bool)
    (total : ∀ a b, le a b = true ∨ le b a = true)
    (htrans : ∀ a b c, le a b = true → le b c = true → le a c = true)
    (l : List α) : (sortLe le l).Pairwise (fun x y => le x y = true) :=
  (sortLe_pairwise le (fun _ _ => True) total htrans l (pairwise_true l)).imp
    (fun h => h.1)

/-! ## Lemmas about grouping and sums -/

theorem mem_groupKeys {key : Row → Option String} {df : List Row} {k : String} :
    k ∈ groupKeys key df ↔ ∃ r ∈ df, key r = some k := by
  unfold groupKeys
  rw [mem_sortLe, List.mem_dedup, List.mem_filterMap]

theorem nodup_groupKeys (key : Row → Option String) (df : List Row) :
    (groupKeys key df).Nodup :=
  ((sortLe_perm strLe _).nodup_iff).mpr (List.nodup_dedup _)

theorem strLe_total (a b : String) : strLe a b = true ∨ strLe b a = true := by
  simp only [strLe, decide_eq_true_eq]
  exact le_total a b

theorem strLe_trans (a b c : String) :
    strLe a b = true → strLe b c = true → strLe a c = true := by
  simp only [strLe, decide_eq_true_eq]
  exact le_trans

/-- The group keys are strictly ascending. -/
theorem groupKeys_pairwise_lt (key : Row → Option String) (df : List Row) :
    (groupKeys key df).Pairwise (fun a b => a < b) := by
  have h := sortLe_pairwise strLe (fun a b => a ≠ b) strLe_total strLe_trans
    (df.filterMap key).dedup (List.nodup_dedup _)
  refine h.imp ?_
  intro a b hab
  rcases lt_or_le a b with hlt | hle
  · exact hlt
  · have hne : a ≠ b := hab.2 (by simpa [strLe] using hle)
    have hab2 : a ≤ b := by simpa [strLe] using hab.1
    exact lt_of_le_of_ne hab2 hne

/-- Splitting a filtered revenue sum along two disjoint predicates. -/
theorem revSum_filter_or (p q : Row → Bool) (df : List Row)
    (hdisj : ∀ r, ¬(p r = true ∧ q r = true)) :
    revSum (df.filter (fun r => p r || q r)) =
      revSum (df.filter p) + revSum (df.filter q) := by
  induction df with
  | nil => simp [revSum]
  | cons a df ih =>
    cases hp : p a <;> cases hq : q a
    · simp only [List.filter_cons, hp, hq, Bool.or_self, if_false, Bool.false_eq_true]
      exact ih
    · simp only [List.filter_cons, hp, hq, Bool.false_or, if_true, if_false,
        Bool.false_eq_true, revSum, List.map_cons, List.sum_cons] at ih ⊢
      rw [ih]; ring
    · simp only [List.filter_cons, hp, hq, Bool.true_or, if_true, if_false,
        Bool.false_eq_true, revSum, List.map_cons, List.sum_cons] at ih ⊢
      rw [ih]; ring
    · exact absurd ⟨hp, hq⟩ (hdisj a)

/-- The sum of per-group revenue sums over distinct keys collapses to one
filtered sum. -/
theorem sum_groupRows (key : Row → Option String) (df : List Row) :
    ∀ keys : List String, keys.Nodup →
      ((keys.map (fun k => revSum (groupRows key k df))).sum =
        revSum (df.filter (fun r =>
          match key r with
          | some s => decide (s ∈ keys)
          | none => false))) := by
  intro keys
  induction keys with
  | nil =>
    intro _
    have h0 : (df.filter (fun r =>
        match key r with
        | some s => decide (s ∈ ([] : List String))
        | none => false)) = [] := by
      apply List.filter_eq_nil_iff.mpr
      intro r _
      cases hkr : key r <;> simp [hkr]
    rw [h0]
    rfl
  | cons k ks ih =>
    intro hnd
    rcases List.pairwise_cons.mp hnd with ⟨hk, hnd2⟩
    have hdisj : ∀ r, ¬((decide (key r = some k)) = true ∧
        ((match key r with
          | some s => decide (s ∈ ks)
          | none => false) : Bool) = true) := by
      intro r ⟨h1, h2⟩
      have hkr : key r = some k := of_decide_eq_true h1
      rw [hkr] at h2
      exact hk k (of_decide_eq_true h2) rfl
    have hsplit : revSum (df.filter (fun r =>
        decide (key r = some k) ||
          (match key r with
          | some s => decide (s ∈ ks)
          | none => false))) =
        revSum (df.filter (fun r => decide (key r = some k))) +
          revSum (df.filter (fun r =>
            match key r with
            | some s => decide (s ∈ ks)
            | none => false)) :=
      revSum_filter_or _ _ df hdisj
    have hcongr : (df.filter (fun r =>
        match key r with
        | some s => decide (s ∈ k :: ks)
        | none => false)) = (df.filter (fun r =>
          decide (key r = some k) ||
            (match key r with
            | some s => decide (s ∈ ks)
            | none => false))) := by
      apply List.filter_congr
      intro r _
      cases hkr : key r with
      | none => simp
      | some s =>
        by_cases hs : s = k <;> simp [hs, List.mem_cons]
    have hgr : groupRows key k df = df.filter (fun r => decide (key r = some k)) := rfl
    simp only [List.map_cons, List.sum_cons]
    rw [ih hnd2, hgr, hcongr, hsplit]

/-- The Segment Revenue table's `total_revenue` column sums to the revenue
of the rows with a non-null `rfm_segment`. -/
theorem seg_revenue_table_sum (df : List Row) :
    ((create_rfm_revenue_df df).map (fun r => r.total_revenue)).sum =
      revSum (df.filter (fun r => (r.rfm_segment).isSome)) := by
  unfold create_rfm_revenue_df
  have hperm := sortValuesDesc_perm
    (fun x y : SegRevRow => decide (x.total_revenue ≤ y.total_revenue))
    ((groupKeys (fun r => r.rfm_segment) df).map (fun k =>
      (⟨k, revSum (groupRows (fun r => r.rfm_segment) k df)⟩ : SegRevRow)))
  rw [(hperm.map (fun r => r.total_revenue)).sum_eq, List.map_map]
  have hcomp : ((fun r : SegRevRow => r.total_revenue) ∘ (fun k =>
      (⟨k, revSum (groupRows (fun r => r.rfm_segment) k df)⟩ : SegRevRow))) =
      fun k => revSum (groupRows (fun r => r.rfm_segment) k df) := rfl
  rw [hcomp, sum_groupRows (fun r => r.rfm_segment) df
    (groupKeys (fun r => r.rfm_segment) df) (nodup_groupKeys _ df)]
  congr 1
  apply List.filter_congr
  intro r hr
  cases hseg : r.rfm_segment with
  | none => simp [hseg]
  | some s =>
    have hmem : s ∈ groupKeys (fun r => r.rfm_segment) df :=
      mem_groupKeys.mpr ⟨r, hr, hseg⟩
    simp [hseg, hmem]

/-- Every dataset's revenue splits into the non-null-segment and the
null-segment parts. -/
theorem revSum_split_seg (df : List Row) :
    revSum df = revSum (df.filter (fun r => (r.rfm_segment).isSome))
      + revSum (df.filter (fun r => (r.rfm_segment).isNone)) := by
  have hdisj : ∀ r : Row,
      ¬((r.rfm_segment).isSome = true ∧ (r.rfm_segment).isNone = true) := by
    intro r ⟨h1, h2⟩
    cases hseg : r.rfm_segment <;> simp [hseg] at h1 h2
  have h := revSum_filter_or (fun r => (r.rfm_segment).isSome)
    (fun r => (r.rfm_segment).isNone) df hdisj
  have hall : df.filter
      (fun r => (r.rfm_segment).isSome || (r.rfm_segment).isNone) = df := by
    apply List.filter_eq_self.mpr
    intro r _
    cases hseg : r.rfm_segment <;> simp [hseg]
  rw [← h, hall]

/-- The sampler returns `min n l.length` rows. -/
theorem length_sampleGo : ∀ (n s : Nat) (l : List Row),
    (sampleGo n s l).length = min n l.length := by
  intro n
  induction n with
  | zero => intro s l; simp [sampleGo]
  | succ n ih =>
    intro s l
    match l with
    | [] => simp [sampleGo]
    | a :: l =>
      have hlt : s % (a :: l).length < (a :: l).length :=
        Nat.mod_lt _ (Nat.succ_pos _)
      simp only [sampleGo, List.length_cons]
      rw [ih, List.length_eraseIdx]
      simp only [List.length_cons] at hlt ⊢
      rw [if_pos hlt]
      omega

/-- An out-of-order date range filters every row out. -/
theorem dateFilter_eq_nil {s e : Int} (h : e < s) (df : List Row) :
    dateFilter s e df = [] := by
  apply List.filter_eq_nil_iff.mpr
  intro r _
  cases ht : r.order_purchase_timestamp with
  | none => simp
  | some t =>
    simp only [Bool.and_eq_true, decide_eq_true_eq, not_and]
    intro h1 h2
    omega

theorem stateFilter_nil (st : String) : stateFilter st [] = [] := by
  unfold stateFilter
  split <;> rfl

theorem segFilter_nil (sg : String) : segFilter sg [] = [] := by
  unfold segFilter
  split <;> rfl

/-- Membership characterization of the State Performance table. -/
theorem mem_state_perf {df : List Row} {x : StatePerfRow} :
    x ∈ create_state_perf_df df ↔
      x.customer_state ∈ groupKeys (fun r => r.customer_state) df ∧
      x = ⟨x.customer_state,
        nunique (fun r => r.order_id)
          (groupRows (fun r => r.customer_state) x.customer_state df),
        revSum (groupRows (fun r => r.customer_state) x.customer_state df)⟩ := by
  unfold create_state_perf_df
  rw [mem_sortValuesDesc, List.mem_map]
  constructor
  · rintro ⟨k, hk, rfl⟩
    exact ⟨hk, rfl⟩
  · rintro ⟨hk, hx⟩
    exact ⟨x.customer_state, hk, hx.symm⟩

/-! ## Further membership lemmas for the filter engine -/

theorem mem_dateFilter {s e : Int} {df : List Row} {r : Row} :
    r ∈ dateFilter s e df ↔
      r ∈ df ∧ ∃ t, r.order_purchase_timestamp = some t ∧ s ≤ t.date ∧ t.date ≤ e := by
  unfold dateFilter
  rw [List.mem_filter]
  constructor
  · rintro ⟨hr, hcond⟩
    refine ⟨hr, ?_⟩
    cases ht : r.order_purchase_timestamp with
    | none => rw [ht] at hcond; cases hcond
    | some t =>
      rw [ht] at hcond
      simp only [Bool.and_eq_true, decide_eq_true_eq] at hcond
      exact ⟨t, rfl, hcond.1, hcond.2⟩
  · rintro ⟨hr, t, ht, h1, h2⟩
    refine ⟨hr, ?_⟩
    rw [ht]
    simp [h1, h2]

theorem mem_stateFilter {st : String} {df : List Row} {r : Row} :
    r ∈ stateFilter st df ↔
      r ∈ df ∧ (st = "(All)" ∨ r.customer_state = some st) := by
  unfold stateFilter
  by_cases hst : st = "(All)"
  · simp [hst]
  · rw [if_neg hst, List.mem_filter]
    simp [hst]

theorem mem_segFilter {sg : String} {df : List Row} {r : Row} :
    r ∈ segFilter sg df ↔
      r ∈ df ∧ (sg = "(All)" ∨ r.rfm_segment = some sg) := by
  unfold segFilter
  by_cases hsg : sg = "(All)"
  · simp [hsg]
  · rw [if_neg hsg, List.mem_filter]
    simp [hsg]

theorem stateFilter_sublist (st : String) (df : List Row) :
    (stateFilter st df).Sublist df := by
  unfold stateFilter
  split
  · exact List.Sublist.refl df
  · exact List.filter_sublist df

theorem segFilter_sublist (sg : String) (df : List Row) :
    (segFilter sg df).Sublist df := by
  unfold segFilter
  split
  · exact List.Sublist.refl df
  · exact List.filter_sublist df

/-! ## Membership lemmas for the average-revenue table -/

/-- Every row of the sorted average-revenue table comes from a group. -/
theorem mem_sortAvgDesc_subset {l : List AvgRevRow} {x : AvgRevRow}
    (hx : x ∈ sortAvgDesc l) : x ∈ l := by
  unfold sortAvgDesc at hx
  rcases List.mem_append.mp hx with h | h
  · exact (List.mem_filter.mp (mem_sortValuesDesc.mp h)).1
  · exact (List.mem_filter.mp h).1

/-- The average column of a group row is the guarded quotient. -/
theorem avg_row_shape {df : List Row} {x : AvgRevRow} (hx : x ∈ avgRevGroups df) :
    x.avg_revenue_per_customer =
      if x.customers = 0 then none
      else some (x.total_revenue / (x.customers : Rat)) := by
  rcases List.mem_map.mp hx with ⟨k, _, rfl⟩
  rfl

/-! ## Claim theorems -/

/-- C1: the filter engine keeps exactly the rows of the dataset whose
purchase timestamp is present and whose calendar date lies in the
inclusive range, that match the selected state unless it is the
`"(All)"` sentinel, and that match the selected segment unless it is the
sentinel; rows with a null timestamp are excluded. -/
theorem spec_c1_filter_engine (df : List Row) (s e : Int) (st sg : String) :
    (df_f df s e st sg).Sublist df ∧
    ∀ r : Row, r ∈ df_f df s e st sg ↔
      r ∈ df ∧
      (∃ t, r.order_purchase_timestamp = some t ∧ s ≤ t.date ∧ t.date ≤ e) ∧
      (st = "(All)" ∨ r.customer_state = some st) ∧
      (sg = "(All)" ∨ r.rfm_segment = some sg) := by
  constructor
  · exact ((segFilter_sublist sg _).trans (stateFilter_sublist st _)).trans
      (List.filter_sublist df)
  · intro r
    unfold df_f
    rw [mem_segFilter, mem_stateFilter, mem_dateFilter]
    tauto

/-- Witness for C1 at a concrete dataset, date range and sentinel filters. -/
theorem spec_c1_filter_engine_witness :
    mkRow "o1" (some "A") (some "SP") (some "Champions") 100 0 ∈
      df_f dEx 0 5 "(All)" "(All)" :=
  ((spec_c1_filter_engine dEx 0 5 "(All)" "(All)").2 _).mpr
    ⟨by decide, ⟨⟨0, 0⟩, rfl, by decide, by decide⟩, Or.inl rfl, Or.inl rfl⟩

/-- C3: an inverted date range yields an empty filtered dataset with no
error, all four aggregation tables empty, and all four KPIs equal to 0. -/
theorem spec_c3_inverted_range (df : List Row) (s e : Int) (st sg : String)
    (h : e < s) :
    df_f df s e st sg = [] ∧
    create_rfm_segment_df (df_f df s e st sg) = [] ∧
    create_rfm_revenue_df (df_f df s e st sg) = [] ∧
    create_avg_rev_per_customer_df (df_f df s e st sg) = [] ∧
    create_state_perf_df (df_f df s e st sg) = [] ∧
    total_revenue (df_f df s e st sg) = 0 ∧
    total_orders (df_f df s e st sg) = 0 ∧
    total_customers (df_f df s e st sg) = 0 ∧
    aov (df_f df s e st sg) = 0 := by
  have h0 : df_f df s e st sg = [] := by
    unfold df_f
    rw [dateFilter_eq_nil h, stateFilter_nil, segFilter_nil]
  rw [h0]
  refine ⟨rfl, rfl, rfl, rfl, rfl, rfl, rfl, rfl, ?_⟩
  decide

/-- Witness for C3 with the range 1..0 over a concrete dataset. -/
theorem spec_c3_inverted_range_witness :
    df_f dEx 1 0 "(All)" "(All)" = [] ∧ aov (df_f dEx 1 0 "(All)" "(All)") = 0 :=
  ⟨(spec_c3_inverted_range dEx 1 0 "(All)" "(All)" (by decide)).1,
   (spec_c3_inverted_range dEx 1 0 "(All)" "(All)" (by decide)).2.2.2.2.2.2.2.2⟩

/-- C4: the Segment Revenue table's `total_revenue` column sums to the
`order_revenue` total over exactly the rows with non-null `rfm_segment`. -/
theorem spec_c4_segment_revenue_conservation (df : List Row) :
    ((create_rfm_revenue_df df).map (fun r => r.total_revenue)).sum =
      revSum (df.filter (fun r => (r.rfm_segment).isSome)) :=
  seg_revenue_table_sum df

/-- C5: the average order value is revenue over distinct orders when there
are orders, and exactly 0 (not missing, not an error) when there are none. -/
theorem spec_c5_aov (df : List Row) :
    (total_orders df ≠ 0 → aov df = total_revenue df / (total_orders df : Rat)) ∧
    (total_orders df = 0 → aov df = 0) := by
  unfold aov
  constructor
  · intro h
    rw [if_pos h]
  · intro h
    rw [if_neg (by simp [h])]

/-- Witness for C5: a dataset with three orders and the empty dataset. -/
theorem spec_c5_aov_witness :
    aov dEx = total_revenue dEx / (total_orders dEx : Rat) ∧ aov [] = 0 :=
  ⟨(spec_c5_aov dEx).1 (by decide), (spec_c5_aov []).2 (by decide)⟩

/-- C2: in the Average Revenue per Customer table, a group with zero
distinct customers gets a missing average (no division error, not zero),
a group with customers gets exactly `total_revenue / customers`, and in
the sorted table every row with a missing average comes after every row
with a defined one. -/
theorem spec_c2_avg_revenue (df : List Row) :
    (∀ x ∈ create_avg_rev_per_customer_df df,
        (x.customers = 0 → x.avg_revenue_per_customer = none) ∧
        (x.customers ≠ 0 →
          x.avg_revenue_per_customer =
            some (x.total_revenue / (x.customers : Rat)))) ∧
    ∃ xs ys, create_avg_rev_per_customer_df df = xs ++ ys ∧
      (∀ x ∈ xs, (x.avg_revenue_per_customer).isSome = true) ∧
      (∀ x ∈ ys, x.avg_revenue_per_customer = none) := by
  constructor
  · intro x hx
    have hsh := avg_row_shape (mem_sortAvgDesc_subset hx)
    constructor
    · intro h0
      rw [hsh, if_pos h0]
    · intro h0
      rw [hsh, if_neg h0]
  · refine ⟨sortValuesDesc
        (fun x y => decide ((x.avg_revenue_per_customer).getD 0 ≤
          (y.avg_revenue_per_customer).getD 0))
        ((avgRevGroups df).filter (fun r => (r.avg_revenue_per_customer).isSome)),
      (avgRevGroups df).filter (fun r => (r.avg_revenue_per_customer).isNone),
      rfl, ?_, ?_⟩
    · intro x hx
      exact (List.mem_filter.mp (mem_sortValuesDesc.mp hx)).2
    · intro x hx
      have h := (List.mem_filter.mp hx).2
      simpa [Option.isNone_iff_eq_none] using h

/-- Witness for C2: a segment whose only customer ids are null gets a
missing average; a segment with one customer gets the exact quotient. -/
theorem spec_c2_avg_revenue_witness :
    (⟨"S", 0, 5, none⟩ : AvgRevRow).avg_revenue_per_customer = none ∧
    (⟨"T", 1, 8, some 8⟩ : AvgRevRow).avg_revenue_per_customer =
      some ((8 : Rat) / ((1 : Nat) : Rat)) := by
  have hST : strLe "S" "T" = true := by
    simp [strLe]
    decide
  have htab : create_avg_rev_per_customer_df dZero =
      [⟨"T", 1, 8, some 8⟩, ⟨"S", 0, 5, none⟩] := by
    simp [create_avg_rev_per_customer_df, avgRevGroups, sortAvgDesc, sortValuesDesc,
      sortLe, insertLe, groupKeys, groupRows, nuniqueOpt, revSum, dZero, mkRow, hST]
  refine ⟨((spec_c2_avg_revenue dZero).1 ⟨"S", 0, 5, none⟩ ?_).1 rfl,
    ((spec_c2_avg_revenue dZero).1 ⟨"T", 1, 8, some 8⟩ ?_).2 (by decide)⟩
  · rw [htab]
    exact List.mem_cons_of_mem _ (List.mem_cons_self _ _)
  · rw [htab]
    exact List.mem_cons_self _ _

/-- A replicated geolocation-valid row is untouched by `dropna`. -/
theorem geoValid_replicate (n : Nat) :
    geoValid (List.replicate n rGeo) = List.replicate n rGeo := by
  apply List.filter_eq_self.mpr
  intro r hr
  rw [List.eq_of_mem_replicate hr]
  rfl

/-- C7: with more than 3000 geolocation-valid rows the sampled set has
exactly 3000 rows, and the sampling is a deterministic function of its
input, so identical inputs give identical samples. -/
theorem spec_c7_sampling (df : List Row) (h : 3000 < (geoValid df).length) :
    (df_map df).length = 3000 ∧
    ∀ df2, df = df2 → df_map df = df_map df2 := by
  constructor
  · unfold df_map
    rw [if_pos h]
    unfold sample
    rw [length_sampleGo]
    omega
  · intro df2 hdf
    rw [hdf]

/-- Witness for C7: 3001 geolocation-valid rows sample down to 3000. -/
theorem spec_c7_sampling_witness :
    (df_map (List.replicate 3001 rGeo)).length = 3000 :=
  (spec_c7_sampling (List.replicate 3001 rGeo)
    (by rw [geoValid_replicate, List.length_replicate]; omega)).1

/-- C10 counterexample: a filtered dataset consisting of one row with a
null `rfm_segment` and revenue 0 makes the KPI total equal the Segment
Revenue column sum even though a null-segment row is present, refuting
"equality exactly when no filtered row has a null rfm_segment". -/
theorem spec_c10_counterexample :
    df_f dNullSeg 0 0 "(All)" "(All)" = dNullSeg ∧
    dNullSeg.any (fun r => (r.rfm_segment).isNone) = true ∧
    total_revenue dNullSeg =
      ((create_rfm_revenue_df dNullSeg).map (fun r => r.total_revenue)).sum := by
  refine ⟨by decide, by decide, ?_⟩
  simp [total_revenue, revSum, dNullSeg, mkRow, create_rfm_revenue_df,
    groupKeys, groupRows, sortValuesDesc, sortLe, insertLe]

/-- C10 amended: the KPI revenue always equals the Segment Revenue column
sum plus the revenue of the null-segment rows; under the dataset invariant
of non-negative revenue the KPI dominates the column sum, with equality
exactly when the null-segment rows' revenue sums to 0. -/
theorem spec_c10_amended (df : List Row)
    (h : ∀ r ∈ df, 0 ≤ r.order_revenue) :
    total_revenue df =
      ((create_rfm_revenue_df df).map (fun r => r.total_revenue)).sum
        + revSum (df.filter (fun r => (r.rfm_segment).isNone)) ∧
    ((create_rfm_revenue_df df).map (fun r => r.total_revenue)).sum ≤
      total_revenue df ∧
    (total_revenue df =
        ((create_rfm_revenue_df df).map (fun r => r.total_revenue)).sum ↔
      revSum (df.filter (fun r => (r.rfm_segment).isNone)) = 0) := by
  have hid : total_revenue df =
      ((create_rfm_revenue_df df).map (fun r => r.total_revenue)).sum
        + revSum (df.filter (fun r => (r.rfm_segment).isNone)) := by
    rw [seg_revenue_table_sum]
    exact revSum_split_seg df
  have hnn : 0 ≤ revSum (df.filter (fun r => (r.rfm_segment).isNone)) := by
    unfold revSum
    apply List.sum_nonneg
    intro x hx
    rcases List.mem_map.mp hx with ⟨r, hr, rfl⟩
    exact h r (List.mem_filter.mp hr).1
  refine ⟨hid, by linarith, ?_, ?_⟩
  · intro he
    linarith
  · intro he
    rw [hid, he, add_zero]

/-- Witness for C10 amended, at a dataset with non-negative revenues. -/
theorem spec_c10_amended_witness :
    total_revenue dEx =
      ((create_rfm_revenue_df dEx).map (fun r => r.total_revenue)).sum
        + revSum (dEx.filter (fun r => (r.rfm_segment).isNone)) :=
  (spec_c10_amended dEx (by decide)).1

/-- C6 counterexample: in `dTie` the segments appear in the order
`"A", "B"` (its first-seen key order, the deduplicated key column) and the
two groups tie at one customer each, yet the table lists `"B"` before
`"A"`: pandas sorts the group keys ascending and the descending sort
reverses the ascending argsort, so ties do not follow first appearance. -/
theorem spec_c6_counterexample :
    (dTie.filterMap (fun r => r.rfm_segment)).dedup = ["A", "B"] ∧
    create_rfm_segment_df dTie = [⟨"B", 1⟩, ⟨"A", 1⟩] ∧
    create_rfm_segment_df dTie ≠ [⟨"A", 1⟩, ⟨"B", 1⟩] := by
  have hAB : strLe "A" "B" = true := by
    simp [strLe]
    decide
  have htab : create_rfm_segment_df dTie = [⟨"B", 1⟩, ⟨"A", 1⟩] := by
    simp [create_rfm_segment_df, sortValuesDesc, sortLe, insertLe, groupKeys,
      groupRows, nuniqueOpt, dTie, mkRow, hAB]
  refine ⟨by decide, htab, ?_⟩
  rw [htab]
  decide

/-- C6 amended: the Segment Customer Count table has one row per distinct
non-null segment carrying its distinct-customer count, is sorted
descending by `customers` with ties in descending segment-key order
(group keys are ascending and the descending sort reverses the ascending
argsort), and is a deterministic function of the input. -/
theorem spec_c6_amended (df : List Row) :
    (∀ x : SegCountRow, x ∈ create_rfm_segment_df df ↔
      (x.rfm_segment ∈ groupKeys (fun r => r.rfm_segment) df ∧
       x.customers = nuniqueOpt (fun r => r.customer_unique_id)
         (groupRows (fun r => r.rfm_segment) x.rfm_segment df))) ∧
    (create_rfm_segment_df df).Pairwise (fun a b =>
      b.customers < a.customers ∨
        (b.customers = a.customers ∧ b.rfm_segment < a.rfm_segment)) ∧
    (∀ df2, df = df2 → create_rfm_segment_df df = create_rfm_segment_df df2) := by
  refine ⟨?_, ?_, fun df2 h => by rw [h]⟩
  · intro x
    unfold create_rfm_segment_df
    rw [mem_sortValuesDesc, List.mem_map]
    constructor
    · rintro ⟨k, hk, rfl⟩
      exact ⟨hk, rfl⟩
    · rintro ⟨hk, hc⟩
      refine ⟨x.rfm_segment, hk, ?_⟩
      rcases x with ⟨s, c⟩
      dsimp only at hc ⊢
      rw [hc]
  · have hkeys : (groupKeys (fun r => r.rfm_segment) df).Pairwise (fun a b => a < b) :=
      groupKeys_pairwise_lt _ df
    have hmap : ((groupKeys (fun r => r.rfm_segment) df).map (fun k =>
        (⟨k, nuniqueOpt (fun r => r.customer_unique_id)
          (groupRows (fun r => r.rfm_segment) k df)⟩ : SegCountRow))).Pairwise
        (fun a b => a.rfm_segment < b.rfm_segment) := by
      rw [List.pairwise_map]
      exact hkeys
    have hsorted := sortLe_pairwise
      (fun x y : SegCountRow => decide (x.customers ≤ y.customers))
      (fun a b => a.rfm_segment < b.rfm_segment)
      (fun a b => by
        simp only [decide_eq_true_eq]
        omega)
      (fun a b c h1 h2 => by
        simp only [decide_eq_true_eq] at h1 h2 ⊢
        omega)
      _ hmap
    unfold create_rfm_segment_df sortValuesDesc
    rw [List.pairwise_reverse]
    refine hsorted.imp ?_
    intro a b hab
    have h1 : a.customers ≤ b.customers := of_decide_eq_true hab.1
    rcases lt_or_eq_of_le h1 with hlt | heq
    · exact Or.inl hlt
    · exact Or.inr ⟨heq, hab.2 (by simp [heq])⟩

/-- Witness for C6 amended: the `"B"` group of `dTie` is in the table. -/
theorem spec_c6_amended_witness :
    (⟨"B", 1⟩ : SegCountRow) ∈ create_rfm_segment_df dTie :=
  ((spec_c6_amended dTie).1 ⟨"B", 1⟩).mpr
    ⟨mem_groupKeys.mpr ⟨mkRow "o2" (some "y") none (some "B") 1 0, by decide, rfl⟩,
     by decide⟩

/-- C8: the "top 10 by orders" view re-sorts the one State Performance
table, so a state appearing in both top-10 views carries identical
`total_orders` and `total_revenue` in each. -/
theorem spec_c8_top10_consistency (df : List Row) (a b : StatePerfRow)
    (ha : a ∈ top10_by_revenue df) (hb : b ∈ top10_by_orders df)
    (hst : a.customer_state = b.customer_state) :
    a.total_orders = b.total_orders ∧ a.total_revenue = b.total_revenue := by
  have ha2 : a ∈ create_state_perf_df df :=
    (List.take_sublist 10 _).subset ha
  have hb2 : b ∈ create_state_perf_df df := by
    have h := (List.take_sublist 10 _).subset hb
    exact mem_sortValuesDesc.mp h
  rcases mem_state_perf.mp ha2 with ⟨_, haeq⟩
  rcases mem_state_perf.mp hb2 with ⟨_, hbeq⟩
  have hab : a = b := by
    rw [haeq, hst]
    exact hbeq.symm
  rw [hab]
  exact ⟨rfl, rfl⟩

/-- Witness for C8: the state `"SP"` appears in both top-10 views of
`dEx` with the same totals. -/
theorem spec_c8_top10_consistency_witness :
    (⟨"SP", 2, 150⟩ : StatePerfRow).total_orders =
        (⟨"SP", 2, 150⟩ : StatePerfRow).total_orders ∧
    (⟨"SP", 2, 150⟩ : StatePerfRow).total_revenue =
        (⟨"SP", 2, 150⟩ : StatePerfRow).total_revenue := by
  have hRS : strLe "RJ" "SP" = true := by
    simp [strLe]
    decide
  have hSR : strLe "SP" "RJ" = false := by
    simp [strLe]
    decide
  have hgroups : (groupKeys (fun r => r.customer_state) dEx).map (fun k =>
      (⟨k, nunique (fun r => r.order_id) (groupRows (fun r => r.customer_state) k dEx),
        revSum (groupRows (fun r => r.customer_state) k dEx)⟩ : StatePerfRow)) =
      [⟨"RJ", 1, 30⟩, ⟨"SP", 2, 150⟩] := by
    simp [groupKeys, sortLe, insertLe, groupRows, nunique, revSum, dEx, mkRow, hRS, hSR]
    norm_num
  have htab : create_state_perf_df dEx = [⟨"SP", 2, 150⟩, ⟨"RJ", 1, 30⟩] := by
    unfold create_state_perf_df
    rw [hgroups]
    simp [sortValuesDesc, sortLe, insertLe]
    norm_num
  refine spec_c8_top10_consistency dEx _ _ ?_ ?_ rfl
  · unfold top10_by_revenue
    rw [htab]
    simp
  · unfold top10_by_orders
    rw [htab]
    simp [sortValuesDesc, sortLe, insertLe]

/-- C9: input discovery prefers the fixed name `main_data.csv` when it is
present; otherwise it returns the lexicographically smallest `.csv` file
when one exists; and when no `.csv` file exists it halts fatally
(`st.error` then `st.stop`, modelled as `none`). -/
theorem spec_c9_discovery (files : List String) :
    ("main_data.csv" ∈ files → discoverDataPath files = some "main_data.csv") ∧
    ("main_data.csv" ∉ files →
      ∀ f, discoverDataPath files = some f →
        f ∈ files ∧ matchesCsv f = true ∧
        ∀ g ∈ files, matchesCsv g = true → f ≤ g) ∧
    ((∃ g ∈ files, matchesCsv g = true) →
      ∃ f, discoverDataPath files = some f) ∧
    ((∀ g ∈ files, matchesCsv g = false) → discoverDataPath files = none) := by
  refine ⟨?_, ?_, ?_, ?_⟩
  · intro h
    unfold discoverDataPath
    rw [if_pos h]
  · intro hmain f hf
    unfold discoverDataPath at hf
    rw [if_neg hmain] at hf
    rcases hcase : sortLe strLe (files.filter (fun x => matchesCsv x)) with _ | ⟨a, rest⟩
    · rw [hcase] at hf
      cases hf
    · rw [hcase] at hf
      have hfa : f = a := by
        have h2 : some a = some f := hf
        exact (Option.some.injEq a f ▸ h2).symm
      subst hfa
      have hfmem : f ∈ sortLe strLe (files.filter (fun x => matchesCsv x)) := by
        rw [hcase]
        exact List.mem_cons_self _ _
      have hfcsv := List.mem_filter.mp (mem_sortLe.mp hfmem)
      refine ⟨hfcsv.1, hfcsv.2, ?_⟩
      intro g hg hgcsv
      have hgmem : g ∈ sortLe strLe (files.filter (fun x => matchesCsv x)) :=
        mem_sortLe.mpr (List.mem_filter.mpr ⟨hg, hgcsv⟩)
      have hsorted := sortLe_sorted strLe strLe_total strLe_trans
        (files.filter (fun x => matchesCsv x))
      rw [hcase] at hsorted hgmem
      rcases List.mem_cons.mp hgmem with rfl | hg2
      · exact le_refl _
      · have h := (List.pairwise_cons.mp hsorted).1 g hg2
        simpa [strLe] using h
  · rintro ⟨g, hg, hcsv⟩
    by_cases hmain : "main_data.csv" ∈ files
    · refine ⟨"main_data.csv", ?_⟩
      unfold discoverDataPath
      rw [if_pos hmain]
    · unfold discoverDataPath
      rw [if_neg hmain]
      have hgmem : g ∈ sortLe strLe (files.filter (fun x => matchesCsv x)) :=
        mem_sortLe.mpr (List.mem_filter.mpr ⟨hg, hcsv⟩)
      rcases hcase : sortLe strLe (files.filter (fun x => matchesCsv x)) with _ | ⟨a, rest⟩
      · rw [hcase] at hgmem
        cases hgmem
      · exact ⟨a, rfl⟩
  · intro hnone
    have hmain : "main_data.csv" ∉ files := by
      intro hm
      have h := hnone _ hm
      have h2 : matchesCsv "main_data.csv" = true := by decide
      rw [h2] at h
      cases h
    unfold discoverDataPath
    rw [if_neg hmain]
    have hempty : files.filter (fun x => matchesCsv x) = [] := by
      apply List.filter_eq_nil_iff.mpr
      intro g hg
      rw [hnone g hg]
      exact Bool.false_ne_true
    rw [hempty]
    rfl

/-- Witness for C9: the fixed name wins when present; among
`["b.csv", "a.csv"]` the chosen `"a.csv"` is lexicographically first. -/
theorem spec_c9_discovery_witness :
    discoverDataPath ["b.csv", "main_data.csv"] = some "main_data.csv" ∧
    ("a.csv" : String) ≤ "b.csv" := by
  have h1 := (spec_c9_discovery ["b.csv", "main_data.csv"]).1 (by decide)
  have hm1 : matchesCsv "b.csv" = true := by decide
  have hm2 : matchesCsv "a.csv" = true := by decide
  have hba : strLe "b.csv" "a.csv" = false := by
    simp [strLe]
    decide
  have hdisc : discoverDataPath ["b.csv", "a.csv"] = some "a.csv" := by
    simp [discoverDataPath, sortLe, insertLe, hm1, hm2, hba]
  have h2 := ((spec_c9_discovery ["b.csv", "a.csv"]).2.1 (by decide) "a.csv" hdisc).2.2
    "b.csv" (by decide) hm1
  exact ⟨h1, h2⟩
